import Mathlib

/-
Verification of the route progress and rerouting core of the
smart-path-finder repository.

The embedding translates the TypeScript source into Lean:
  * geographic coordinates are pairs of rationals (the JS `number`
    inputs of interest are decimal literals, hence rational; the
    embedding uses exact arithmetic),
  * the per-segment distance callback `p1.distanceTo(p2)` is a call
    into the external Leaflet library, so every path operation is
    parametrised by a distance function `dist : Point → Point → ℚ`,
  * a JS function that can return a value, return `undefined`, or
    divide by zero is modelled with the sum type `PVResult`.
-/

namespace SPF

/-- Geometry point, source type `L.LatLngExpression` = `[lat, lng]`
(PathVisualization.tsx uses `path[i]` pairs through `L.latLng`). -/
structure Point where
  lat : ℚ
  lng : ℚ
deriving DecidableEq, Repr

/-- Source interface `Coordinates` (pathFinding.ts lines 8-11). -/
structure Coordinates where
  latitude : ℚ
  longitude : ℚ
deriving DecidableEq, Repr

/-- The `transportMode` string union `'driving' | 'flight'` of pathFinding.ts. -/
inductive TransportMode where
  | driving
  | flight
deriving DecidableEq, Repr

/-- Source interface `PathSegment` (pathFinding.ts lines 13-21); the
`transportMode?` field is optional in TypeScript, hence `Option`. -/
structure PathSegment where
  distance : ℚ
  duration : ℚ
  startLocation : Coordinates
  endLocation : Coordinates
  instructions : String
  geometry : List Point
  transportMode : Option TransportMode
deriving DecidableEq, Repr

/-- Source interface `Route` (pathFinding.ts lines 23-29). -/
structure Route where
  distance : ℚ
  duration : ℚ
  segments : List PathSegment
  geometry : List Point
  transportMode : Option TransportMode
deriving DecidableEq, Repr

/-- Source interface `PathFindingResponse` (pathFinding.ts lines 31-35). -/
structure PathFindingResponse where
  routes : List Route
  sourceLocation : Coordinates
  destinationLocation : Coordinates
deriving DecidableEq, Repr

/-- Observable outcome of the JS helper `getPointAlongPath`:
a returned `L.latLng` value, the JS value `undefined`
(returned by `return path[0]` on an empty array), or a division by
zero in the `segmentProgress` computation.  In the latter case the JS
code computes `(targetDistance - distanceSoFar) / 0`; on every input
reachable with a nonnegative distance function and nonnegative
progress this is `0 / 0 = NaN`, which makes both interpolated
coordinates NaN and `L.latLng` then throws
`Invalid LatLng object` (Leaflet rejects NaN coordinates). -/
inductive PVResult where
  | point (p : Point)
  | undef
  | divZero
deriving DecidableEq, Repr

/-- The `segmentLengths` array built by the first loop of
`getPointAlongPath` (PathVisualization.tsx lines 888-894):
one external-library distance per consecutive pair of path points. -/
def segLengths (dist : Point → Point → ℚ) : List Point → List ℚ
  | p :: q :: rest => dist p q :: segLengths dist (q :: rest)
  | _ => []

/-- The second loop of `getPointAlongPath`
(PathVisualization.tsx lines 896-916): walk the segments accumulating
`distanceSoFar`; on the first segment with
`distanceSoFar + segmentLength >= targetDistance` compute
`segmentProgress = (targetDistance - distanceSoFar) / segmentLength`
and interpolate latitude and longitude linearly; if the loop finishes,
return the last path point. -/
def walkPath (dist : Point → Point → ℚ) (target : ℚ) :
    List Point → ℚ → PVResult
  | [], _ => PVResult.undef
  | [p], _ => PVResult.point p
  | p :: q :: rest, soFar =>
    let len := dist p q
    if target ≤ soFar + len then
      if len = 0 then PVResult.divZero
      else
        PVResult.point
          ⟨p.lat + (q.lat - p.lat) * ((target - soFar) / len),
           p.lng + (q.lng - p.lng) * ((target - soFar) / len)⟩
    else walkPath dist target (q :: rest) (soFar + len)

/-- Source helper `getPointAlongPath(path, progress)`
(PathVisualization.tsx lines 882-917).  `path.length <= 1` returns
`path[0]` — the point for a singleton, the JS value `undefined` for an
empty array; otherwise the target distance is
`progress * totalLength` and the segment walk decides the point. -/
def getPointAlongPath (dist : Point → Point → ℚ) (path : List Point)
    (progress : ℚ) : PVResult :=
  match path with
  | [] => PVResult.undef
  | [p] => PVResult.point p
  | p :: q :: rest =>
    walkPath dist (progress * (segLengths dist (p :: q :: rest)).sum)
      (p :: q :: rest) 0

/-- Concrete nonnegative, symmetric, definite distance function used to
instantiate the external `distanceTo` parameter in closed witnesses and
counterexamples.  It agrees with any geographic distance on the facts
those closed statements use: coincident points are at distance `0` and
distinct axis-aligned test points are at positive distance. -/
def rabs (x : ℚ) : ℚ :=
  if x < 0 then -x else x

def flatDist (p q : Point) : ℚ :=
  rabs (p.lat - q.lat) + rabs (p.lng - q.lng)

example : getPointAlongPath flatDist [] (1/2) = PVResult.undef := rfl
example : getPointAlongPath flatDist [⟨3, 4⟩] (1/2) = PVResult.point ⟨3, 4⟩ := rfl
example : getPointAlongPath flatDist [⟨0, 0⟩, ⟨0, 2⟩] (1/2) = PVResult.point ⟨0, 1⟩ := by
  norm_num [getPointAlongPath, walkPath, segLengths, flatDist, rabs]
example : getPointAlongPath flatDist [⟨0, 0⟩, ⟨0, 1⟩, ⟨0, 2⟩] (1/2) = PVResult.point ⟨0, 1⟩ := by
  norm_num [getPointAlongPath, walkPath, segLengths, flatDist, rabs]
example : getPointAlongPath flatDist [⟨0, 0⟩, ⟨0, 0⟩] (1/2) = PVResult.divZero := by
  norm_num [getPointAlongPath, walkPath, segLengths, flatDist, rabs]
example : getPointAlongPath flatDist [⟨0, 0⟩, ⟨0, 0⟩, ⟨0, 1⟩] 0 = PVResult.divZero := by
  norm_num [getPointAlongPath, walkPath, segLengths, flatDist, rabs]
example : getPointAlongPath flatDist [⟨0, 0⟩, ⟨0, 1⟩] 1 = PVResult.point ⟨0, 1⟩ := by
  norm_num [getPointAlongPath, walkPath, segLengths, flatDist, rabs]

/-- Conversion `L.latLng(position.latitude, position.longitude)` of a
`Coordinates` record into a map point. -/
def coordToPoint (c : Coordinates) : Point :=
  ⟨c.latitude, c.longitude⟩

/-- The JS comparison `distance < minDistance` of `findClosestPointIndex`,
where `minDistance` starts as `Infinity` (modelled `none`): every finite
distance compares below `Infinity`. -/
def ltMinDistance (d : ℚ) : Option ℚ → Bool
  | none => true
  | some m => decide (d < m)

/-- The `forEach` accumulation of `findClosestPointIndex`
(PathVisualization.tsx lines 869-877): scan the points left to right
keeping `minDistance`/`closestIndex`, replacing only on a strictly
smaller distance. -/
def fcpiLoop (f : Point → ℚ) : List Point → Nat → Option ℚ → Nat → Nat
  | [], _, _, best => best
  | p :: rest, idx, minD, best =>
    if ltMinDistance (f p) minD then
      fcpiLoop f rest (idx + 1) (some (f p)) idx
    else
      fcpiLoop f rest (idx + 1) minD best

/-- Source helper `findClosestPointIndex(geometry, position)`
(PathVisualization.tsx lines 860-880): linear scan for the point of the
geometry at minimum external-library distance from `position`,
starting from `minDistance = Infinity`, `closestIndex = 0`. -/
def findClosestPointIndex (dist : Point → Point → ℚ)
    (geometry : List Point) (position : Coordinates) : Nat :=
  fcpiLoop (fun p => dist (coordToPoint position) p) geometry 0 none 0

/-- Invariant of the scan once `minDistance` is finite: either nothing
beats the current minimum `m` and the kept index survives, or the
result is the absolute position of the last strict improvement, which
is strictly below `m`, strictly below every earlier scanned value and
at most every scanned value. -/
lemma fcpiLoop_spec (f : Point → ℚ) :
    ∀ (ps : List Point) (idx best : Nat) (m : ℚ),
      (fcpiLoop f ps idx (some m) best = best ∧
        ∀ j, j < ps.length → m ≤ f (ps.getD j ⟨0, 0⟩))
      ∨ (∃ k, k < ps.length ∧ fcpiLoop f ps idx (some m) best = idx + k ∧
          f (ps.getD k ⟨0, 0⟩) < m ∧
          (∀ j, j < k → f (ps.getD k ⟨0, 0⟩) < f (ps.getD j ⟨0, 0⟩)) ∧
          (∀ j, j < ps.length → f (ps.getD k ⟨0, 0⟩) ≤ f (ps.getD j ⟨0, 0⟩))) := by
  intro ps
  induction ps with
  | nil =>
    intro idx best m
    exact Or.inl ⟨rfl, fun j hj => absurd hj (by simp)⟩
  | cons p rest ih =>
    intro idx best m
    by_cases hd : f p < m
    · have hcond : ltMinDistance (f p) (some m) = true := by
        simp [ltMinDistance, hd]
      have hstep : fcpiLoop f (p :: rest) idx (some m) best
          = fcpiLoop f rest (idx + 1) (some (f p)) idx := by
        simp [fcpiLoop, hcond]
      rcases ih (idx + 1) idx (f p) with ⟨heq, hall⟩ | ⟨k, hk, heq, hlt, hearly, hle⟩
      · refine Or.inr ⟨0, by simp, ?_, by simpa using hd, fun j hj => absurd hj (by omega), ?_⟩
        · rw [hstep, heq]; omega
        · intro j hj
          match j with
          | 0 => simp
          | j + 1 => simpa using hall j (by simpa using hj)
      · refine Or.inr ⟨k + 1, by simpa using hk, ?_, ?_, ?_, ?_⟩
        · rw [hstep, heq]; omega
        · calc f ((p :: rest).getD (k + 1) ⟨0, 0⟩) = f (rest.getD k ⟨0, 0⟩) := by simp
            _ < f p := hlt
            _ < m := hd
        · intro j hj
          match j with
          | 0 => simpa using hlt
          | j + 1 =>
            have := hearly j (by omega)
            simpa using this
        · intro j hj
          match j with
          | 0 => simpa using le_of_lt hlt
          | j + 1 => simpa using hle j (by simpa using hj)
    · have hcond : ltMinDistance (f p) (some m) = false := by
        simp [ltMinDistance, hd]
      have hstep : fcpiLoop f (p :: rest) idx (some m) best
          = fcpiLoop f rest (idx + 1) (some m) best := by
        simp [fcpiLoop, hcond]
      have hmp : m ≤ f p := le_of_not_lt hd
      rcases ih (idx + 1) best m with ⟨heq, hall⟩ | ⟨k, hk, heq, hlt, hearly, hle⟩
      · refine Or.inl ⟨by rw [hstep, heq], ?_⟩
        intro j hj
        match j with
        | 0 => simpa using hmp
        | j + 1 => simpa using hall j (by simpa using hj)
      · refine Or.inr ⟨k + 1, by simpa using hk, ?_, by simpa using hlt, ?_, ?_⟩
        · rw [hstep, heq]; omega
        · intro j hj
          match j with
          | 0 =>
            have : f (rest.getD k ⟨0, 0⟩) < f p := lt_of_lt_of_le hlt hmp
            simpa using this
          | j + 1 => simpa using hearly j (by omega)
        · intro j hj
          match j with
          | 0 =>
            have : f (rest.getD k ⟨0, 0⟩) ≤ f p := le_of_lt (lt_of_lt_of_le hlt hmp)
            simpa using this
          | j + 1 => simpa using hle j (by simpa using hj)

/-- C7: for every non-empty path and every query position, the
closest-point lookup `findClosestPointIndex` returns the index of a
path point at minimum distance from the position (for the external
distance function it is called with — the source calls it with
Leaflet's geodesic `distanceTo`), and on ties between equal minimal
distances it returns the first (smallest) such index: every strictly
earlier index has a strictly larger distance. -/
theorem C7_closest_point_first_min (dist : Point → Point → ℚ)
    (geometry : List Point) (position : Coordinates) (h : geometry ≠ []) :
    findClosestPointIndex dist geometry position < geometry.length ∧
    (∀ j, j < geometry.length →
      dist (coordToPoint position)
          (geometry.getD (findClosestPointIndex dist geometry position) ⟨0, 0⟩)
        ≤ dist (coordToPoint position) (geometry.getD j ⟨0, 0⟩)) ∧
    (∀ j, j < findClosestPointIndex dist geometry position →
      dist (coordToPoint position)
          (geometry.getD (findClosestPointIndex dist geometry position) ⟨0, 0⟩)
        < dist (coordToPoint position) (geometry.getD j ⟨0, 0⟩)) := by
  obtain ⟨p, rest, rfl⟩ := List.exists_cons_of_ne_nil h
  set f : Point → ℚ := fun q => dist (coordToPoint position) q with hf
  have hstep : findClosestPointIndex dist (p :: rest) position
      = fcpiLoop f rest 1 (some (f p)) 0 := by
    simp [findClosestPointIndex, fcpiLoop, ltMinDistance, hf]
  rcases fcpiLoop_spec f rest 1 0 (f p) with ⟨heq, hall⟩ | ⟨k, hk, heq, hlt, hearly, hle⟩
  · rw [hstep, heq]
    refine ⟨by simp, ?_, fun j hj => absurd hj (by omega)⟩
    intro j hj
    match j with
    | 0 => simp
    | j + 1 => simpa using hall j (by simpa using hj)
  · have hres : findClosestPointIndex dist (p :: rest) position = k + 1 := by
      rw [hstep, heq]; omega
    rw [hres]
    refine ⟨by simpa using hk, ?_, ?_⟩
    · intro j hj
      match j with
      | 0 => simpa using le_of_lt hlt
      | j + 1 => simpa using hle j (by simpa using hj)
    · intro j hj
      match j with
      | 0 => simpa using hlt
      | j + 1 => simpa using hearly j (by omega)

/-- Witness for C7 at a concrete geometry and position: the point at
index 2 is the unique closest one. -/
theorem C7_closest_point_first_min_witness :
    ([⟨0, 0⟩, ⟨0, 5⟩, ⟨0, 1⟩] : List Point) ≠ [] ∧
    (findClosestPointIndex flatDist [⟨0, 0⟩, ⟨0, 5⟩, ⟨0, 1⟩] ⟨0, 1⟩
        < ([⟨0, 0⟩, ⟨0, 5⟩, ⟨0, 1⟩] : List Point).length ∧
      (∀ j, j < ([⟨0, 0⟩, ⟨0, 5⟩, ⟨0, 1⟩] : List Point).length →
        flatDist (coordToPoint ⟨0, 1⟩)
            (([⟨0, 0⟩, ⟨0, 5⟩, ⟨0, 1⟩] : List Point).getD
              (findClosestPointIndex flatDist [⟨0, 0⟩, ⟨0, 5⟩, ⟨0, 1⟩] ⟨0, 1⟩) ⟨0, 0⟩)
          ≤ flatDist (coordToPoint ⟨0, 1⟩)
              (([⟨0, 0⟩, ⟨0, 5⟩, ⟨0, 1⟩] : List Point).getD j ⟨0, 0⟩)) ∧
      (∀ j, j < findClosestPointIndex flatDist [⟨0, 0⟩, ⟨0, 5⟩, ⟨0, 1⟩] ⟨0, 1⟩ →
        flatDist (coordToPoint ⟨0, 1⟩)
            (([⟨0, 0⟩, ⟨0, 5⟩, ⟨0, 1⟩] : List Point).getD
              (findClosestPointIndex flatDist [⟨0, 0⟩, ⟨0, 5⟩, ⟨0, 1⟩] ⟨0, 1⟩) ⟨0, 0⟩)
          < flatDist (coordToPoint ⟨0, 1⟩)
              (([⟨0, 0⟩, ⟨0, 5⟩, ⟨0, 1⟩] : List Point).getD j ⟨0, 0⟩))) :=
  ⟨by simp, C7_closest_point_first_min flatDist [⟨0, 0⟩, ⟨0, 5⟩, ⟨0, 1⟩] ⟨0, 1⟩ (by simp)⟩

example : findClosestPointIndex flatDist [⟨0, 0⟩, ⟨0, 5⟩, ⟨0, 1⟩] ⟨0, 1⟩ = 2 := by
  norm_num [findClosestPointIndex, fcpiLoop, ltMinDistance, coordToPoint, flatDist, rabs]

lemma rabs_nonneg (x : ℚ) : 0 ≤ rabs x := by
  unfold rabs; split <;> linarith

lemma rabs_eq_zero {x : ℚ} (h : rabs x = 0) : x = 0 := by
  unfold rabs at h; split at h <;> linarith

lemma flatDist_nonneg : ∀ p q : Point, 0 ≤ flatDist p q := by
  intro p q
  have h1 := rabs_nonneg (p.lat - q.lat)
  have h2 := rabs_nonneg (p.lng - q.lng)
  unfold flatDist; linarith

lemma flatDist_definite : ∀ p q : Point, flatDist p q = 0 → p = q := by
  intro p q h
  have h1 := rabs_nonneg (p.lat - q.lat)
  have h2 := rabs_nonneg (p.lng - q.lng)
  have hlat : rabs (p.lat - q.lat) = 0 := by unfold flatDist at h; linarith
  have hlng : rabs (p.lng - q.lng) = 0 := by unfold flatDist at h; linarith
  have := rabs_eq_zero hlat
  have := rabs_eq_zero hlng
  cases p; cases q
  simp only [Point.mk.injEq]
  constructor <;> linarith

lemma segLengths_sum_nonneg (dist : Point → Point → ℚ)
    (hnn : ∀ a b, 0 ≤ dist a b) :
    ∀ ps : List Point, 0 ≤ (segLengths dist ps).sum := by
  intro ps
  induction ps with
  | nil => simp [segLengths]
  | cons p rest ih =>
    match rest, ih with
    | [], _ => simp [segLengths]
    | q :: rest2, ih =>
      have := hnn p q
      simp only [segLengths, List.sum_cons]
      linarith

/-- If all consecutive distances of a chain vanish and the distance
function is definite, the chain is constant, so its last point is its
first. -/
lemma getLast_of_segLengths_sum_zero (dist : Point → Point → ℚ)
    (hnn : ∀ a b, 0 ≤ dist a b) (hdef : ∀ a b, dist a b = 0 → a = b) :
    ∀ (ps : List Point) (q : Point),
      (segLengths dist (q :: ps)).sum = 0 →
      (q :: ps).getLast (List.cons_ne_nil q ps) = q := by
  intro ps
  induction ps with
  | nil => intro q _; rfl
  | cons r rest2 ih =>
    intro q hsum
    have hqr : 0 ≤ dist q r := hnn q r
    have hrest : 0 ≤ (segLengths dist (r :: rest2)).sum :=
      segLengths_sum_nonneg dist hnn (r :: rest2)
    have hsum2 : dist q r + (segLengths dist (r :: rest2)).sum = 0 := by
      simpa [segLengths] using hsum
    have hz : dist q r = 0 := by linarith
    have hrz : (segLengths dist (r :: rest2)).sum = 0 := by linarith
    have hqr2 : q = r := hdef q r hz
    have := ih r hrz
    calc (q :: r :: rest2).getLast (List.cons_ne_nil q (r :: rest2))
        = (r :: rest2).getLast (List.cons_ne_nil r rest2) := by
          exact List.getLast_cons (List.cons_ne_nil r rest2)
      _ = r := this
      _ = q := hqr2.symm

/-- Segment walk with a target strictly above the accumulated distance:
the guard `distanceSoFar + segmentLength >= targetDistance` can only
fire on a segment of positive length (so no division by zero), and if
it never fires the final point is returned; either way the walk
produces a point. -/
lemma walkPath_pos_target (dist : Point → Point → ℚ) (target : ℚ) :
    ∀ (ps : List Point) (p : Point) (soFar : ℚ), soFar < target →
      ∃ pt, walkPath dist target (p :: ps) soFar = PVResult.point pt := by
  intro ps
  induction ps with
  | nil => intro p soFar _; exact ⟨p, rfl⟩
  | cons q rest ih =>
    intro p soFar hlt
    by_cases hcond : target ≤ soFar + dist p q
    · have hlen : dist p q ≠ 0 := by
        intro h0; rw [h0] at hcond; linarith
      refine ⟨⟨p.lat + (q.lat - p.lat) * ((target - soFar) / dist p q),
              p.lng + (q.lng - p.lng) * ((target - soFar) / dist p q)⟩, ?_⟩
      simp only [walkPath, hcond, if_true, hlen, if_false]
    · have hlt2 : soFar + dist p q < target := lt_of_not_le hcond
      obtain ⟨pt, hpt⟩ := ih q (soFar + dist p q) hlt2
      exact ⟨pt, by simp only [walkPath, hcond, if_false]; exact hpt⟩

/-- Segment walk whose target equals the total remaining length (the
progress-1 case): it stops on the last segment of positive length with
`segmentProgress = 1` and yields the coordinates of the last point. -/
lemma walkPath_full_target (dist : Point → Point → ℚ)
    (hnn : ∀ a b, 0 ≤ dist a b) (hdef : ∀ a b, dist a b = 0 → a = b)
    (target : ℚ) :
    ∀ (ps : List Point) (p : Point) (soFar : ℚ), soFar < target →
      target = soFar + (segLengths dist (p :: ps)).sum →
      walkPath dist target (p :: ps) soFar
        = PVResult.point ((p :: ps).getLast (List.cons_ne_nil p ps)) := by
  intro ps
  induction ps with
  | nil =>
    intro p soFar hlt htot
    simp [segLengths] at htot
    linarith
  | cons q rest ih =>
    intro p soFar hlt htot
    have hsum : (segLengths dist (p :: q :: rest)).sum
        = dist p q + (segLengths dist (q :: rest)).sum := by
      simp [segLengths]
    by_cases hcond : target ≤ soFar + dist p q
    · have hrest_nn : 0 ≤ (segLengths dist (q :: rest)).sum :=
        segLengths_sum_nonneg dist hnn (q :: rest)
      have hrest_zero : (segLengths dist (q :: rest)).sum = 0 := by
        rw [hsum] at htot; linarith
      have htarget : target = soFar + dist p q := by
        rw [hsum] at htot; linarith
      have hlen : dist p q ≠ 0 := by
        intro h0; rw [h0] at htarget; linarith
      have hprog : (target - soFar) / dist p q = 1 := by
        rw [htarget]; field_simp
      have hlast : (q :: rest).getLast (List.cons_ne_nil q rest) = q :=
        getLast_of_segLengths_sum_zero dist hnn hdef rest q hrest_zero
      have hlast2 : (p :: q :: rest).getLast (List.cons_ne_nil p (q :: rest)) = q := by
        rw [List.getLast_cons (List.cons_ne_nil q rest)]; exact hlast
      simp only [walkPath, hcond, if_true, hlen, if_false, hprog, hlast2]
      congr 1
      cases q
      simp only [Point.mk.injEq]
      constructor <;> ring
    · have hlt2 : soFar + dist p q < target := lt_of_not_le hcond
      have htot2 : target = (soFar + dist p q) + (segLengths dist (q :: rest)).sum := by
        rw [hsum] at htot; linarith
      have := ih q (soFar + dist p q) hlt2 htot2
      rw [List.getLast_cons (List.cons_ne_nil q rest)]
      simp only [walkPath, hcond, if_false]
      exact this

/-- At progress 0 with a first segment of nonzero length the walk
enters the first segment with `segmentProgress = 0` and returns the
first point exactly. -/
lemma getPointAlongPath_zero (dist : Point → Point → ℚ)
    (hnn : ∀ a b, 0 ≤ dist a b) (p q : Point) (rest : List Point)
    (h1 : dist p q ≠ 0) :
    getPointAlongPath dist (p :: q :: rest) 0 = PVResult.point p := by
  have hcond : (0 : ℚ) ≤ 0 + dist p q := by
    have := hnn p q; linarith
  have hprog : ((0 : ℚ) * (segLengths dist (p :: q :: rest)).sum - 0) / dist p q = 0 := by
    field_simp
  simp only [getPointAlongPath, walkPath]
  rw [if_pos (by simpa using hcond), if_neg h1, hprog]
  congr 1
  cases p
  simp only [Point.mk.injEq]
  constructor <;> ring

/-- C3 counterexample: called on an empty path, `getPointAlongPath`
does not fail with an InvalidInput error — `return path[0]` on an
empty array returns the JS value `undefined` as an ordinary return
value (the source contains no throw and no error branch for this
case). -/
theorem C3_counterexample :
    getPointAlongPath flatDist [] (1/2) = PVResult.undef ∧
    PVResult.undef ≠ PVResult.divZero := ⟨rfl, by simp⟩

/-- C3 (amended): for an empty path, `getPointAlongPath` returns the
JS value `undefined` (no error is raised); for a path of exactly one
point it returns that point for every progress value. -/
theorem C3_amended (dist : Point → Point → ℚ) (progress : ℚ) (x : Point) :
    getPointAlongPath dist [] progress = PVResult.undef ∧
    getPointAlongPath dist [x] progress = PVResult.point x :=
  ⟨rfl, rfl⟩

/-- C4 counterexample: on an all-coincident two-point path the walk
enters the first (zero-length) segment — `0 + 0 >= 0` holds — and
computes `segmentProgress = 0 / 0`, so the result is NaN coordinates
(`L.latLng` throws), not the first point; and on a path whose
zero-length first segment is adjacent to a nonzero one, progress 0
also divides by zero instead of skipping the zero-length segment. -/
theorem C4_counterexample :
    getPointAlongPath flatDist [⟨0, 0⟩, ⟨0, 0⟩] (1/2) = PVResult.divZero ∧
    getPointAlongPath flatDist [⟨0, 0⟩, ⟨0, 0⟩] (1/2) ≠ PVResult.point ⟨0, 0⟩ ∧
    getPointAlongPath flatDist [⟨2, 2⟩, ⟨2, 2⟩, ⟨2, 3⟩] 0 = PVResult.divZero := by
  have h1 : getPointAlongPath flatDist [⟨0, 0⟩, ⟨0, 0⟩] (1/2) = PVResult.divZero := by
    norm_num [getPointAlongPath, walkPath, segLengths, flatDist, rabs]
  have h3 : getPointAlongPath flatDist [⟨2, 2⟩, ⟨2, 2⟩, ⟨2, 3⟩] 0 = PVResult.divZero := by
    norm_num [getPointAlongPath, walkPath, segLengths, flatDist, rabs]
  exact ⟨h1, by rw [h1]; simp, h3⟩

/-- C4 (amended): with a nonnegative per-segment distance function, a
path of total length 0 makes the segment walk divide by zero (the
guard enters the first zero-length segment), while any progress whose
target distance `progress * totalLength` is positive never divides by
zero — zero-length segments are only skipped because
`distanceSoFar + 0 >= targetDistance` fails — and the walk returns a
finite coordinate. -/
theorem C4_amended (dist : Point → Point → ℚ)
    (hnn : ∀ a b, 0 ≤ dist a b) (p q : Point) (rest : List Point)
    (progress : ℚ) :
    ((segLengths dist (p :: q :: rest)).sum = 0 →
      getPointAlongPath dist (p :: q :: rest) progress = PVResult.divZero) ∧
    (0 < progress * (segLengths dist (p :: q :: rest)).sum →
      ∃ pt, getPointAlongPath dist (p :: q :: rest) progress
        = PVResult.point pt) := by
  constructor
  · intro hsum
    have hrest_nn : 0 ≤ (segLengths dist (q :: rest)).sum :=
      segLengths_sum_nonneg dist hnn (q :: rest)
    have hpq := hnn p q
    have hsum2 : dist p q + (segLengths dist (q :: rest)).sum = 0 := by
      simpa [segLengths] using hsum
    have hlen : dist p q = 0 := by linarith
    have htarget : progress * (segLengths dist (p :: q :: rest)).sum = 0 := by
      rw [hsum]; ring
    have hcond : progress * (segLengths dist (p :: q :: rest)).sum ≤ 0 + dist p q := by
      rw [htarget, hlen]; norm_num
    simp only [getPointAlongPath, walkPath]
    rw [if_pos hcond, if_pos hlen]
  · intro hpos
    obtain ⟨pt, hpt⟩ := walkPath_pos_target dist
      (progress * (segLengths dist (p :: q :: rest)).sum) (q :: rest) p 0 hpos
    exact ⟨pt, by simpa only [getPointAlongPath] using hpt⟩

/-- Witness for C4 at a concrete nondegenerate input: the positive
target case applies, and the hypotheses are satisfiable. -/
theorem C4_amended_witness :
    (∀ a b : Point, 0 ≤ flatDist a b) ∧
    (0 : ℚ) < (1/2) * (segLengths flatDist [⟨0, 0⟩, ⟨0, 3⟩]).sum ∧
    (((segLengths flatDist [⟨0, 0⟩, ⟨0, 3⟩]).sum = 0 →
      getPointAlongPath flatDist [⟨0, 0⟩, ⟨0, 3⟩] (1/2) = PVResult.divZero) ∧
    (0 < (1/2 : ℚ) * (segLengths flatDist [⟨0, 0⟩, ⟨0, 3⟩]).sum →
      ∃ pt, getPointAlongPath flatDist [⟨0, 0⟩, ⟨0, 3⟩] (1/2)
        = PVResult.point pt)) :=
  ⟨flatDist_nonneg, by norm_num [segLengths, flatDist, rabs],
    C4_amended flatDist flatDist_nonneg ⟨0, 0⟩ ⟨0, 3⟩ [] (1/2)⟩

/-- C8 counterexample: a path whose first segment has zero length
breaks the progress-0 endpoint property — the walk enters the
zero-length first segment (`0 + 0 >= 0`) and divides by zero, so the
result is not the first point `(1,1)`. -/
theorem C8_counterexample :
    getPointAlongPath flatDist [⟨1, 1⟩, ⟨1, 1⟩, ⟨1, 2⟩] 0 = PVResult.divZero ∧
    getPointAlongPath flatDist [⟨1, 1⟩, ⟨1, 1⟩, ⟨1, 2⟩] 0 ≠ PVResult.point ⟨1, 1⟩ := by
  have h1 : getPointAlongPath flatDist [⟨1, 1⟩, ⟨1, 1⟩, ⟨1, 2⟩] 0 = PVResult.divZero := by
    norm_num [getPointAlongPath, walkPath, segLengths, flatDist, rabs]
  exact ⟨h1, by rw [h1]; simp⟩

/-- C8 (amended): for a nonnegative and definite per-segment distance
function and a path of at least two points whose first segment has
nonzero length (which makes the total length positive),
`pointAtProgress` at 0 is the first point and at 1 it is the last
point — the walk satisfies the cumulative-distance condition at the
final positive-length segment with `segmentProgress = 1`; a
single-point path returns its point at every progress. -/
theorem C8_endpoints_amended (dist : Point → Point → ℚ)
    (hnn : ∀ a b, 0 ≤ dist a b) (hdef : ∀ a b, dist a b = 0 → a = b)
    (p q : Point) (rest : List Point) (h1 : dist p q ≠ 0) :
    getPointAlongPath dist (p :: q :: rest) 0 = PVResult.point p ∧
    getPointAlongPath dist (p :: q :: rest) 1
      = PVResult.point
          ((p :: q :: rest).getLast (List.cons_ne_nil p (q :: rest))) ∧
    ∀ (x : Point) (pr : ℚ), getPointAlongPath dist [x] pr = PVResult.point x := by
  refine ⟨getPointAlongPath_zero dist hnn p q rest h1, ?_, fun x pr => rfl⟩
  have hlen_pos : 0 < dist p q := lt_of_le_of_ne (hnn p q) (Ne.symm h1)
  have hrest_nn : 0 ≤ (segLengths dist (q :: rest)).sum :=
    segLengths_sum_nonneg dist hnn (q :: rest)
  have hsum : (segLengths dist (p :: q :: rest)).sum
      = dist p q + (segLengths dist (q :: rest)).sum := by
    simp [segLengths]
  have htpos : (0 : ℚ) < 1 * (segLengths dist (p :: q :: rest)).sum := by
    rw [one_mul, hsum]; linarith
  have htot : 1 * (segLengths dist (p :: q :: rest)).sum
      = 0 + (segLengths dist (p :: q :: rest)).sum := by ring
  have := walkPath_full_target dist hnn hdef
    (1 * (segLengths dist (p :: q :: rest)).sum) (q :: rest) p 0
    (by linarith) htot
  simpa only [getPointAlongPath] using this

/-- Witness for C8 at a concrete two-point path with a nonzero first
segment: progress 0 gives the first point, progress 1 the last. -/
theorem C8_endpoints_amended_witness :
    ((∀ a b : Point, 0 ≤ flatDist a b) ∧
      (∀ a b : Point, flatDist a b = 0 → a = b) ∧
      flatDist ⟨0, 0⟩ ⟨0, 1⟩ ≠ 0) ∧
    getPointAlongPath flatDist [⟨0, 0⟩, ⟨0, 1⟩] 0 = PVResult.point ⟨0, 0⟩ ∧
    getPointAlongPath flatDist [⟨0, 0⟩, ⟨0, 1⟩] 1 = PVResult.point ⟨0, 1⟩ := by
  have h1 : flatDist ⟨0, 0⟩ ⟨0, 1⟩ ≠ 0 := by norm_num [flatDist, rabs]
  have main := C8_endpoints_amended flatDist flatDist_nonneg flatDist_definite
    ⟨0, 0⟩ ⟨0, 1⟩ [] h1
  exact ⟨⟨flatDist_nonneg, flatDist_definite, h1⟩, main.1, by simpa using main.2.1⟩

/-- JS `Array.prototype.findIndex`, which yields the index of the
first element satisfying the callback and `-1` when none does. -/
def jsFindIndexAux {α : Type} (p : α → Bool) : List α → Nat → Int
  | [], _ => -1
  | x :: rest, i => if p x then (i : Int) else jsFindIndexAux p rest (i + 1)

def jsFindIndex {α : Type} (p : α → Bool) (xs : List α) : Int :=
  jsFindIndexAux p xs 0

/-- JS `findIndex` with an index-aware callback,
as in `findIndex((r, i) => ...)`. -/
def jsFindIndexIAux {α : Type} (p : Nat → α → Bool) : List α → Nat → Int
  | [], _ => -1
  | x :: rest, i => if p i x then (i : Int) else jsFindIndexIAux p rest (i + 1)

def jsFindIndexI {α : Type} (p : Nat → α → Bool) (xs : List α) : Int :=
  jsFindIndexIAux p xs 0

/-- Position of the first element satisfying a predicate, stated the
way the specification words it (index of the first match, none when no
element matches); used to relate the JS `findIndex` translations to
first-match semantics. -/
def firstIdx? {α : Type} (p : α → Bool) : List α → Option Nat
  | [] => none
  | x :: rest => if p x then some 0 else (firstIdx? p rest).map (· + 1)

lemma jsFindIndexAux_eq {α : Type} (p : α → Bool) :
    ∀ (xs : List α) (i : Nat),
      jsFindIndexAux p xs i
        = match firstIdx? p xs with
          | some j => ((i + j : Nat) : Int)
          | none => -1 := by
  intro xs
  induction xs with
  | nil => intro i; rfl
  | cons x rest ih =>
    intro i
    by_cases hx : p x = true
    · simp [jsFindIndexAux, firstIdx?, hx]
    · simp only [jsFindIndexAux, firstIdx?, hx, Bool.false_eq_true, if_false, ih (i + 1)]
      cases h : firstIdx? p rest with
      | none => simp
      | some j =>
        simp only [Option.map_some']
        push_cast
        ring

lemma jsFindIndex_eq {α : Type} (p : α → Bool) (xs : List α) :
    jsFindIndex p xs
      = match firstIdx? p xs with
        | some j => (j : Int)
        | none => -1 := by
  have := jsFindIndexAux_eq p xs 0
  simpa [jsFindIndex] using this

lemma firstIdx?_some_spec {α : Type} (p : α → Bool) (d : α) :
    ∀ (xs : List α) (j : Nat), firstIdx? p xs = some j →
      j < xs.length ∧ p (xs.getD j d) = true ∧
        ∀ i, i < j → p (xs.getD i d) = false := by
  intro xs
  induction xs with
  | nil => intro j h; simp [firstIdx?] at h
  | cons x rest ih =>
    intro j h
    by_cases hx : p x = true
    · simp [firstIdx?, hx] at h
      subst h
      exact ⟨by simp, by simpa using hx, fun i hi => absurd hi (by omega)⟩
    · simp only [firstIdx?, hx, Bool.false_eq_true, if_false, Option.map_eq_some'] at h
      obtain ⟨j0, hj0, rfl⟩ := h
      obtain ⟨hlen, hp, hearly⟩ := ih j0 hj0
      refine ⟨by simpa using hlen, by simpa using hp, ?_⟩
      intro i hi
      match i with
      | 0 => simpa using hx
      | i + 1 => simpa using hearly i (by omega)

lemma firstIdx?_none_spec {α : Type} (p : α → Bool) :
    ∀ xs : List α, firstIdx? p xs = none → ∀ x ∈ xs, p x = false := by
  intro xs
  induction xs with
  | nil => intro _ x hx; simp at hx
  | cons x rest ih =>
    intro h y hy
    by_cases hx : p x = true
    · simp [firstIdx?, hx] at h
    · simp only [firstIdx?, hx, Bool.false_eq_true, if_false,
        Option.map_eq_none'] at h
      rcases List.mem_cons.mp hy with rfl | hmem
      · simpa using hx
      · exact ih h y hmem

/-- The route-selection code shared by the `preferredMode` effect
(PathVisualization.tsx lines 468-478) and by `loadPathData`
(lines 496-502): `routes.findIndex(route => route.transportMode ===
preferredMode)`, and the active index is reassigned only when the
result is `>= 0`; otherwise the current index is left as it was
(0 at initial load, since the state is created with `useState(0)`). -/
def selectPreferredRoute (routes : List Route) (preferredMode : TransportMode)
    (currentIdx : Nat) : Nat :=
  let k := jsFindIndex (fun r => r.transportMode == some preferredMode) routes
  if 0 ≤ k then k.toNat else currentIdx

/-- Variant-1 `handleObstacle` reroute core (PathVisualization.tsx
lines 260-294): with several routes it merely cycles the index; with a
single route it fetches an alternative and stores it over the current
entry, `updatedRoutes[currentPathIndex] = alternativeRoute`, leaving
the index unchanged. -/
def handleObstacleV1 (routes : List Route) (cur : Nat) (alt : Route) :
    List Route × Nat :=
  if routes.length > 1 then (routes, (cur + 1) % routes.length)
  else (routes.set cur alt, cur)

/-- Variant-2 `handleObstacle` reroute core with the `finally` block
(PathVisualization.tsx lines 715-845).  On the flight route it always
fetches an alternative, pushes it and sets the index to the old list
length; on a ground route it switches to an existing flight route only
when one exists and `Math.random() > 0.5` (the `coin` input), else
pushes a fetched alternative; an out-of-range index makes the JS body
throw before changing state (caught by the handler).  The third
component is the path progress set by the `finally` block:
`setPathProgress(0)` — unconditionally 0. -/
def handleObstacleV2 (routes : List Route) (cur : Nat) (alt : Route)
    (coin : Bool) : List Route × Nat × ℚ :=
  match routes[cur]? with
  | none => (routes, cur, 0)
  | some current =>
    if current.transportMode = some TransportMode.flight then
      (routes ++ [alt], routes.length, 0)
    else
      let k := jsFindIndex (fun r => r.transportMode == some TransportMode.flight) routes
      if 0 ≤ k ∧ coin then (routes, k.toNat, 0)
      else (routes ++ [alt], routes.length, 0)

/-- part_001 `handleObstacle` reroute core (src/unnamed/part_001 lines
269-399).  On the flight route: switch to the first driving route when
one exists, else fetch-and-append.  On a ground route with several
routes: prefer the flight route when present and not current, else the
first other driving route, else fetch-and-append.  With a single
route: fetch-and-append.  Appending sets the index to
`updatedRoutes.length - 1`, the old length. -/
def handleObstacleP1 (routes : List Route) (cur : Nat) (alt : Route) :
    List Route × Nat :=
  match routes[cur]? with
  | none => (routes, cur)
  | some current =>
    if current.transportMode = some TransportMode.flight then
      let k := jsFindIndex (fun r => r.transportMode == some TransportMode.driving) routes
      if 0 ≤ k then (routes, k.toNat)
      else (routes ++ [alt], routes.length)
    else if routes.length > 1 then
      let fk := jsFindIndex (fun r => r.transportMode == some TransportMode.flight) routes
      if 0 ≤ fk ∧ (cur : Int) ≠ fk then (routes, fk.toNat)
      else
        let dk := jsFindIndexI
          (fun i r => decide (i ≠ cur) && (r.transportMode == some TransportMode.driving))
          routes
        if 0 ≤ dk then (routes, dk.toNat)
        else (routes ++ [alt], routes.length)
    else (routes ++ [alt], routes.length)

/-- Sample flight route used by closed statements. -/
def flightSample : Route :=
  ⟨5, 1, [], [⟨0, 0⟩, ⟨0, 5⟩], some TransportMode.flight⟩

/-- Sample driving route used by closed statements. -/
def drivingSample : Route :=
  ⟨2, 1, [], [⟨0, 0⟩, ⟨0, 1⟩], some TransportMode.driving⟩

/-- Sample fetched alternative (driving, three geometry points). -/
def altSample : Route :=
  ⟨2, 1, [], [⟨0, 0⟩, ⟨1, 0⟩, ⟨0, 1⟩], some TransportMode.driving⟩

/-- Sample fetched alternative starting at `(0,0)` and ending at
`(0,1)`. -/
def altRoute2 : Route :=
  ⟨1, 1, [], [⟨0, 0⟩, ⟨0, 1⟩], some TransportMode.driving⟩

/-- Default route used only as the irrelevant `List.getD` fallback in
statements about valid indices. -/
def emptyRoute : Route :=
  ⟨0, 0, [], [], none⟩

/-- C9 counterexample: when no route matches the preferred mode, the
selection leaves the current index unchanged instead of returning 0 —
with two driving routes, preferred mode flight and current index 1 the
result is 1, not 0 as the claim states. -/
theorem C9_counterexample :
    selectPreferredRoute [drivingSample, drivingSample] TransportMode.flight 1 = 1 ∧
    (1 : Nat) ≠ 0 := by
  constructor
  · simp [selectPreferredRoute, jsFindIndex, jsFindIndexAux, drivingSample]
  · simp

/-- C9 (amended): the selection used at load and on a `preferredMode`
change returns the index of the first route whose transport-mode tag
equals the preferred mode, and when no route matches it returns the
current index unchanged (0 at initial load only because the state is
initialised to 0). -/
theorem C9_amended (routes : List Route) (mode : TransportMode)
    (currentIdx : Nat) :
    selectPreferredRoute routes mode currentIdx
      = (firstIdx? (fun r => r.transportMode == some mode) routes).getD
          currentIdx := by
  unfold selectPreferredRoute
  rw [jsFindIndex_eq]
  cases h : firstIdx? (fun r => r.transportMode == some mode) routes with
  | none => simp
  | some j => simp

/-- C6 counterexample: in the PathVisualization.tsx variant, a reroute
requested on the flight route always fetches and appends a new
alternative — even though the set holds a driving route at index 1,
the handler returns the appended list with index 2, not the switch to
index 1 the claim requires. -/
theorem C6_counterexample :
    handleObstacleV2 [flightSample, drivingSample] 0 altSample true
      = ([flightSample, drivingSample, altSample], 2, 0) ∧
    flightSample.transportMode = some TransportMode.flight ∧
    drivingSample.transportMode = some TransportMode.driving ∧
    (2 : Nat) ≠ 1 := by
  refine ⟨?_, rfl, rfl, by simp⟩
  simp [handleObstacleV2, flightSample]

/-- C6 (amended, holds of the part_001 variant): when a reroute is
requested while the active route is the flight route, the part_001
handler switches the active index to the first existing driving route
when one is present — leaving the route list unchanged, with the
target index a driving route — and fetches and appends a new
alternative (index pointing at it) only when no driving route
exists. -/
theorem C6_flight_prefers_ground_P1 (routes : List Route) (cur : Nat)
    (alt : Route) (r : Route) (hcur : routes[cur]? = some r)
    (hflight : r.transportMode = some TransportMode.flight) :
    (∀ j, firstIdx? (fun x => x.transportMode == some TransportMode.driving)
        routes = some j →
      handleObstacleP1 routes cur alt = (routes, j) ∧ j < routes.length ∧
        (routes.getD j emptyRoute).transportMode = some TransportMode.driving) ∧
    (firstIdx? (fun x => x.transportMode == some TransportMode.driving)
        routes = none →
      handleObstacleP1 routes cur alt = (routes ++ [alt], routes.length)) := by
  constructor
  · intro j hj
    obtain ⟨hlen, hp, -⟩ := firstIdx?_some_spec
      (fun x => x.transportMode == some TransportMode.driving) emptyRoute routes j hj
    refine ⟨?_, hlen, by simpa using hp⟩
    simp only [handleObstacleP1, hcur]
    rw [if_pos hflight, jsFindIndex_eq, hj]
    simp
  · intro hnone
    simp only [handleObstacleP1, hcur]
    rw [if_pos hflight, jsFindIndex_eq, hnone]
    simp

/-- Witness for C6 at a concrete set: current route 0 is the flight
route, a driving route exists at index 1, and the handler switches to
index 1 without touching the route list. -/
theorem C6_flight_prefers_ground_P1_witness :
    (([flightSample, drivingSample] : List Route)[0]? = some flightSample ∧
      flightSample.transportMode = some TransportMode.flight) ∧
    handleObstacleP1 [flightSample, drivingSample] 0 altSample
      = ([flightSample, drivingSample], 1) := by
  have h := (C6_flight_prefers_ground_P1 [flightSample, drivingSample] 0 altSample
    flightSample rfl rfl).1 1 (by rfl)
  exact ⟨⟨rfl, rfl⟩, h.1⟩

/-- C2 counterexample: the variant-1 reroute that adopts a fetched
alternative stores it over the current entry in place —
`updatedRoutes[currentPathIndex] = alternativeRoute` — so with one
route the result is `[alt]` with unchanged index 0: the previous entry
is overwritten and nothing is appended. -/
theorem C2_counterexample :
    (handleObstacleV1 [drivingSample] 0 altSample).1 = [altSample] ∧
    (handleObstacleV1 [drivingSample] 0 altSample).2 = 0 ∧
    drivingSample ≠ altSample ∧
    (handleObstacleV1 [drivingSample] 0 altSample).1
      ≠ [drivingSample] ++ [altSample] := by
  have hne : drivingSample ≠ altSample := by
    intro h
    have := congrArg (fun r => r.geometry.length) h
    simp [drivingSample, altSample] at this
  have hres : handleObstacleV1 [drivingSample] 0 altSample = ([altSample], 0) := rfl
  refine ⟨rfl, rfl, hne, ?_⟩
  rw [hres]
  intro h
  have := congrArg List.length h
  simp at this

/-- The shape C2 asserts of an adoption outcome `(route list, index)`:
the fetched alternative is appended at the end — the original prefix
is preserved entry for entry, the length grows by one, the last entry
is the alternative — and the new active index is the old length,
which addresses exactly the appended entry. -/
def appendOutcome (routes : List Route) (alt : Route)
    (res : List Route × Nat) : Prop :=
  res.1 = routes ++ [alt] ∧
  res.1.take routes.length = routes ∧
  res.1.length = routes.length + 1 ∧
  res.1.getLast? = some alt ∧
  res.2 = routes.length ∧
  res.1[res.2]? = some alt

lemma appendOutcome_append (routes : List Route) (alt : Route) :
    appendOutcome routes alt (routes ++ [alt], routes.length) := by
  refine ⟨rfl, by simp, by simp, by simp, rfl, by simp⟩

/-- Every branch of the part_001 handler either leaves the route list
unchanged (an index switch, no alternative adopted) or returns exactly
the append outcome `(routes ++ [alt], old length)` — this covers all
three of its adoption sites: the flight branch (part_001 lines
306-317), the driving branch (lines 356-367) and the single-route
branch (lines 387-398). -/
lemma handleObstacleP1_cases (routes : List Route) (cur : Nat) (alt : Route) :
    (handleObstacleP1 routes cur alt).1 = routes ∨
    handleObstacleP1 routes cur alt = (routes ++ [alt], routes.length) := by
  rcases hcur : routes[cur]? with - | current <;>
    simp only [handleObstacleP1, hcur]
  · exact Or.inl trivial
  · by_cases hf : current.transportMode = some TransportMode.flight
    · rw [if_pos hf]
      split
      · exact Or.inl rfl
      · exact Or.inr rfl
    · rw [if_neg hf]
      by_cases hlen : routes.length > 1
      · rw [if_pos hlen]
        split
        · exact Or.inl rfl
        · split
          · exact Or.inl rfl
          · exact Or.inr rfl
      · rw [if_neg hlen]
        exact Or.inr rfl

/-- Every branch of the variant-2 handler either leaves the route list
unchanged or appends the alternative with the index at the old length
— this covers both of its adoption sites, the flight branch
(PathVisualization.tsx lines 737-755) and the driving branch
(lines 767-785). -/
lemma handleObstacleV2_cases (routes : List Route) (cur : Nat) (alt : Route)
    (coin : Bool) :
    (handleObstacleV2 routes cur alt coin).1 = routes ∨
    ((handleObstacleV2 routes cur alt coin).1 = routes ++ [alt] ∧
      (handleObstacleV2 routes cur alt coin).2.1 = routes.length) := by
  rcases hcur : routes[cur]? with - | current <;>
    simp only [handleObstacleV2, hcur]
  · exact Or.inl trivial
  · by_cases hf : current.transportMode = some TransportMode.flight
    · rw [if_pos hf]
      exact Or.inr ⟨rfl, rfl⟩
    · rw [if_neg hf]
      split
      · exact Or.inl rfl
      · exact Or.inr ⟨rfl, rfl⟩

/-- C2 (amended, holds of the later variants): when the variant-2
handler adopts a fetched alternative on the flight route, the result
is exactly the append outcome with progress reset; and in full
generality, every reroute of the variant-2 handler and of the
part_001 handler — every branch, so in particular every branch that
adopts a newly fetched alternative — either leaves the route list
unchanged (an index switch that adopts nothing) or appends the
alternative at the end, prefix preserved, with the new active index
equal to the old length, addressing the appended entry.  No branch of
either handler overwrites an existing entry. -/
theorem C2_append_and_index (routes : List Route) (cur : Nat)
    (alt : Route) (coin : Bool) (r : Route) (hcur : routes[cur]? = some r)
    (hflight : r.transportMode = some TransportMode.flight) :
    handleObstacleV2 routes cur alt coin = (routes ++ [alt], routes.length, 0) ∧
    appendOutcome routes alt ((handleObstacleV2 routes cur alt coin).1,
      (handleObstacleV2 routes cur alt coin).2.1) ∧
    (∀ (cur2 : Nat) (alt2 : Route),
      (handleObstacleP1 routes cur2 alt2).1 = routes ∨
      appendOutcome routes alt2 (handleObstacleP1 routes cur2 alt2)) ∧
    (∀ (cur2 : Nat) (alt2 : Route) (coin2 : Bool),
      (handleObstacleV2 routes cur2 alt2 coin2).1 = routes ∨
      appendOutcome routes alt2 ((handleObstacleV2 routes cur2 alt2 coin2).1,
        (handleObstacleV2 routes cur2 alt2 coin2).2.1)) := by
  have hres : handleObstacleV2 routes cur alt coin
      = (routes ++ [alt], routes.length, 0) := by
    simp only [handleObstacleV2, hcur]
    rw [if_pos hflight]
  refine ⟨hres, ?_, ?_, ?_⟩
  · rw [hres]
    exact appendOutcome_append routes alt
  · intro cur2 alt2
    rcases handleObstacleP1_cases routes cur2 alt2 with h | h
    · exact Or.inl h
    · right
      rw [h]
      exact appendOutcome_append routes alt2
  · intro cur2 alt2 coin2
    rcases handleObstacleV2_cases routes cur2 alt2 coin2 with h | ⟨h1, h2⟩
    · exact Or.inl h
    · right
      rw [h1, h2]
      exact appendOutcome_append routes alt2

/-- Witness for C2 at a concrete set: the single flight route, with
the appended alternative at index 1, and the two handlers' general
switch-or-append dichotomies instantiated at that set. -/
theorem C2_append_and_index_witness :
    (([flightSample] : List Route)[0]? = some flightSample ∧
      flightSample.transportMode = some TransportMode.flight) ∧
    (handleObstacleV2 [flightSample] 0 altSample true
        = ([flightSample] ++ [altSample], ([flightSample] : List Route).length, 0) ∧
      appendOutcome [flightSample] altSample
        ((handleObstacleV2 [flightSample] 0 altSample true).1,
          (handleObstacleV2 [flightSample] 0 altSample true).2.1) ∧
      (∀ (cur2 : Nat) (alt2 : Route),
        (handleObstacleP1 [flightSample] cur2 alt2).1 = [flightSample] ∨
        appendOutcome [flightSample] alt2 (handleObstacleP1 [flightSample] cur2 alt2)) ∧
      (∀ (cur2 : Nat) (alt2 : Route) (coin2 : Bool),
        (handleObstacleV2 [flightSample] cur2 alt2 coin2).1 = [flightSample] ∨
        appendOutcome [flightSample] alt2
          ((handleObstacleV2 [flightSample] cur2 alt2 coin2).1,
            (handleObstacleV2 [flightSample] cur2 alt2 coin2).2.1))) :=
  ⟨⟨rfl, rfl⟩,
    C2_append_and_index [flightSample] 0 altSample true flightSample rfl rfl⟩

/-- Claim-side definition following the wording of spec section 4.4,
for comparison against the source: find the geometry point closest to
the current position, divide the cumulative geometry distance up to it
by the total geometry length, clamp to [0, 1]; 0 for a degenerate
alternative.  The source never computes this quantity — its
`findClosestPointIndex` helper is never called — which is what C1 is
decided on. -/
def specRerouteProgress (dist : Point → Point → ℚ) (geom : List Point)
    (position : Coordinates) : ℚ :=
  let total := (segLengths dist geom).sum
  if geom.length < 2 ∨ total = 0 then 0
  else
    min 1 (max 0
      (((segLengths dist geom).take
          (findClosestPointIndex dist geom position)).sum / total))

/-- C1 counterexample: the variant-2 handler's `finally` block sets the
new path progress to 0 unconditionally, but for the alternative route
`(0,0) → (0,1)` with current position `(0,1)` the claimed
closest-point formula gives progress 1; and the interpolated position
at the returned progress 0 is `(0,0)`, a full geometry length away
from the current position, so the claimed reroute continuity fails
although the alternative is not degenerate. -/
theorem C1_counterexample :
    (handleObstacleV2 [flightSample] 0 altRoute2 true).2.2 = 0 ∧
    specRerouteProgress flatDist altRoute2.geometry ⟨0, 1⟩ = 1 ∧
    (0 : ℚ) ≠ 1 ∧
    getPointAlongPath flatDist altRoute2.geometry 0 = PVResult.point ⟨0, 0⟩ ∧
    flatDist (coordToPoint ⟨0, 1⟩) ⟨0, 0⟩ = 1 := by
  refine ⟨rfl, ?_, by norm_num, ?_, by norm_num [flatDist, coordToPoint, rabs]⟩
  · norm_num [specRerouteProgress, segLengths, findClosestPointIndex, fcpiLoop,
      ltMinDistance, coordToPoint, flatDist, rabs, altRoute2]
  · norm_num [getPointAlongPath, walkPath, segLengths, flatDist, rabs, altRoute2]

/-- C1 (amended): after the variant-2 obstacle handler the path
progress is 0 in every branch (the `finally` block runs
`setPathProgress(0)` unconditionally; no closest-point remapping is
performed), and when the adopted alternative's geometry starts at the
current position with a first segment of nonzero length — which the
alternative-route collaborator guarantees by routing from the current
position — the interpolated position at the returned progress equals
the current position. -/
theorem C1_progress_reset_V2 (dist : Point → Point → ℚ)
    (hnn : ∀ a b, 0 ≤ dist a b) (routes : List Route) (cur : Nat)
    (alt : Route) (coin : Bool) (start q : Point) (rest : List Point)
    (hgeom : alt.geometry = start :: q :: rest) (h1 : dist start q ≠ 0) :
    (handleObstacleV2 routes cur alt coin).2.2 = 0 ∧
    getPointAlongPath dist alt.geometry 0 = PVResult.point start := by
  constructor
  · rcases hcur : routes[cur]? with - | current <;> simp only [handleObstacleV2, hcur]
    by_cases hf : current.transportMode = some TransportMode.flight
    · rw [if_pos hf]
    · rw [if_neg hf]
      split <;> rfl
  · rw [hgeom]
    exact getPointAlongPath_zero dist hnn start q rest h1

/-- Witness for C1 at a concrete reroute: the alternative starts at
the current position `(0,0)`, the progress after the handler is 0 and
interpolating the alternative at 0 gives back `(0,0)`. -/
theorem C1_progress_reset_V2_witness :
    ((∀ a b : Point, 0 ≤ flatDist a b) ∧
      altRoute2.geometry = ⟨0, 0⟩ :: ⟨0, 1⟩ :: [] ∧
      flatDist ⟨0, 0⟩ ⟨0, 1⟩ ≠ 0) ∧
    (handleObstacleV2 [flightSample] 0 altRoute2 true).2.2 = 0 ∧
    getPointAlongPath flatDist altRoute2.geometry 0 = PVResult.point ⟨0, 0⟩ := by
  have h1 : flatDist ⟨0, 0⟩ ⟨0, 1⟩ ≠ 0 := by norm_num [flatDist, rabs]
  exact ⟨⟨flatDist_nonneg, rfl, h1⟩,
    C1_progress_reset_V2 flatDist flatDist_nonneg [flightSample] 0 altRoute2 true
      ⟨0, 0⟩ ⟨0, 1⟩ [] rfl h1⟩

/-
Model of the route-loading pipeline of pathFinding.ts.  The external
boundaries are inputs:
  * `hav` stands for the source's `calculateDistance` (haversine over
    JS floats — its exact values are transcendental, and no claim
    settled here depends on them),
  * `noise` supplies the two `Math.random()` draws per generated
    waypoint,
  * `geoSrc`/`geoDst` are the Nominatim geocoding outcomes (`none`
    models a failed geocode, which `geocodeLocation` turns into `null`
    without throwing),
  * `fbS`/`fbD` stand for `getCoordinatesForLocation(source/destination)`
    — the deterministic per-string table/hash lookup, abstracted as the
    resolved fallback coordinates,
  * `osrm` is the OSRM call outcome: `none` models any thrown
    error (failed fetch, non-Ok code), the only events that reach
    findPath's catch.
-/

/-- The fields of an OSRM `data.routes[i]` that findPath reads, with
geometries already decoded (polyline decoding belongs to the wire
boundary). -/
structure OsrmStep where
  distance : ℚ
  duration : ℚ
  location : Coordinates
  instruction : String
  geometry : List Point
deriving DecidableEq, Repr

structure OsrmRoute where
  distance : ℚ
  duration : ℚ
  geometry : List Point
  steps : List OsrmStep
deriving DecidableEq, Repr

/-- findPath's mapping of one OSRM route into a `Route`
(pathFinding.ts lines 145-173): every segment is tagged driving, the
segment end location is the last point of the route geometry when the
step carries geometry (modelled as nonemptiness of the decoded step
geometry), else the maneuver location. -/
def osrmToRoute (r : OsrmRoute) : Route :=
  { distance := r.distance
    duration := r.duration
    segments := r.steps.map fun s =>
      { distance := s.distance
        duration := s.duration
        startLocation := s.location
        endLocation :=
          if s.geometry.isEmpty then s.location
          else match r.geometry.getLast? with
            | some p => ⟨p.lat, p.lng⟩
            | none => s.location
        instructions := s.instruction
        geometry := s.geometry
        transportMode := some TransportMode.driving }
    geometry := r.geometry
    transportMode := some TransportMode.driving }

/-- `generateFlightRoute` (pathFinding.ts lines 199-234): the direct
two-point geometry, distance from `calculateDistance`, duration at
222 m/s, one flight segment. -/
def generateFlightRoute (hav : Coordinates → Coordinates → ℚ)
    (sourceCoords destCoords : Coordinates) : Route :=
  let flightGeometry : List Point :=
    [⟨sourceCoords.latitude, sourceCoords.longitude⟩,
     ⟨destCoords.latitude, destCoords.longitude⟩]
  let distance := hav sourceCoords destCoords
  let duration := distance / 222
  { distance := distance
    duration := duration
    segments := [{ distance := distance
                   duration := duration
                   startLocation := sourceCoords
                   endLocation := destCoords
                   instructions := "Fly directly to destination"
                   geometry := flightGeometry
                   transportMode := some TransportMode.flight }]
    geometry := flightGeometry
    transportMode := some TransportMode.flight }

/-- `generateRandomWaypoints` (pathFinding.ts lines 515-542): `count`
waypoints interpolated along the straight segment, each nudged by two
`Math.random()` draws scaled by `randomFactor = 0.005`. -/
def generateRandomWaypoints (noise : Nat → ℚ × ℚ)
    (start finish : Coordinates) (count : Nat) : List Coordinates :=
  (List.range count).map fun (i : Nat) =>
    let position := (((i : Nat) : ℚ) + 1) / (((count : Nat) : ℚ) + 1)
    let lat := start.latitude + (finish.latitude - start.latitude) * position
    let lng := start.longitude + (finish.longitude - start.longitude) * position
    ⟨lat + ((noise i).1 - 1/2) * (5/1000),
     lng + ((noise i).2 - 1/2) * (5/1000)⟩

/-- The per-pair segment construction of `generateSimulatedRouteData`
(pathFinding.ts lines 393-421): one driving segment per consecutive
point pair, with distance from `calculateDistance` and duration at
roughly 10 m/s. -/
def simSegs (havP : Point → Point → ℚ) (destName : String) :
    List Point → Bool → List PathSegment
  | p :: q :: rest, isFirst =>
    { distance := havP p q
      duration := havP p q / 10
      startLocation := ⟨p.lat, p.lng⟩
      endLocation := ⟨q.lat, q.lng⟩
      instructions :=
        (if isFirst then "Head toward " else "Continue toward ") ++ destName
      geometry := [p, q]
      transportMode := some TransportMode.driving }
      :: simSegs havP destName (q :: rest) false
  | _, _ => []

/-- One simulated driving route of `generateSimulatedRouteData`
(pathFinding.ts lines 381-434): source, `3 + index` random waypoints,
destination; totals summed over the segments. -/
def mkSimRoute (hav : Coordinates → Coordinates → ℚ)
    (noise : Nat → ℚ × ℚ) (s d : Coordinates) (destName : String)
    (count : Nat) : Route :=
  let mids := generateRandomWaypoints noise s d count
  let allPoints : List Point :=
    (⟨s.latitude, s.longitude⟩ : Point)
      :: (mids.map fun c => (⟨c.latitude, c.longitude⟩ : Point))
      ++ [⟨d.latitude, d.longitude⟩]
  let segs := simSegs
    (fun p q => hav ⟨p.lat, p.lng⟩ ⟨q.lat, q.lng⟩) destName allPoints true
  { distance := (segs.map PathSegment.distance).sum
    duration := (segs.map PathSegment.duration).sum
    segments := segs
    geometry := allPoints
    transportMode := some TransportMode.driving }

/-- The JS `routes.sort((a, b) => a.duration - b.duration)` — a stable
ascending sort by duration. -/
def sortByDuration (routes : List Route) : List Route :=
  List.insertionSort (fun a b => a.duration ≤ b.duration) routes

/-- `generateSimulatedRouteData` (pathFinding.ts lines 376-448): three
simulated driving routes with 3, 4, 5 waypoints, plus the flight
route, sorted by duration.  `s`/`d` stand for the
`getCoordinatesForLocation` lookups of the two location names. -/
def generateSimulatedRouteData (hav : Coordinates → Coordinates → ℚ)
    (noise : Nat → Nat → ℚ × ℚ) (s d : Coordinates) (destName : String) :
    PathFindingResponse :=
  let routes := (List.range 3).map fun index =>
    mkSimRoute hav (noise index) s d destName (3 + index)
  { routes := sortByDuration (routes ++ [generateFlightRoute hav s d])
    sourceLocation := s
    destinationLocation := d }

/-- `findPath` (pathFinding.ts lines 110-196): resolve each endpoint to
the geocoded coordinates or the local fallback
(`sourceCoords || getCoordinatesForLocation(source)`); on an OSRM
outcome, map its routes to driving Routes and push the flight route;
any thrown error (modelled `osrm = none`) falls into the catch, which
returns `generateSimulatedRouteData` — built from the local fallback
coordinates, not the geocoded ones. -/
def findPath (hav : Coordinates → Coordinates → ℚ)
    (noise : Nat → Nat → ℚ × ℚ) (destName : String)
    (fbS fbD : Coordinates) (geoSrc geoDst : Option Coordinates)
    (osrm : Option (List OsrmRoute)) : PathFindingResponse :=
  match osrm with
  | some osrmRoutes =>
    let s := geoSrc.getD fbS
    let d := geoDst.getD fbD
    { routes := (osrmRoutes.map osrmToRoute) ++ [generateFlightRoute hav s d]
      sourceLocation := s
      destinationLocation := d }
  | none => generateSimulatedRouteData hav noise fbS fbD destName

/-- Concrete stand-in for `calculateDistance` in closed statements
(exact haversine values are transcendental; no closed statement here
depends on the distance values). -/
def havFlat (c1 c2 : Coordinates) : ℚ :=
  rabs (c1.latitude - c2.latitude) + rabs (c1.longitude - c2.longitude)

/-- Concrete `Math.random()` draws for closed statements. -/
def noise0 : Nat → Nat → ℚ × ℚ := fun _ _ => (1/2, 1/2)

/-- A successful OSRM route for closed statements. -/
def osrmSample : OsrmRoute :=
  ⟨100, 10, [⟨0, 0⟩, ⟨0, 1⟩], []⟩

/-- Fallback coordinates of the two location names in closed
statements. -/
def fbNY : Coordinates := ⟨40, -74⟩

def fbLA : Coordinates := ⟨34, -118⟩

lemma generateSimulatedRouteData_routes_length
    (hav : Coordinates → Coordinates → ℚ) (noise : Nat → Nat → ℚ × ℚ)
    (s d : Coordinates) (destName : String) :
    (generateSimulatedRouteData hav noise s d destName).routes.length = 4 := by
  unfold generateSimulatedRouteData sortByDuration
  dsimp only
  rw [List.length_insertionSort]
  simp

lemma flight_mem_generateSimulatedRouteData
    (hav : Coordinates → Coordinates → ℚ) (noise : Nat → Nat → ℚ × ℚ)
    (s d : Coordinates) (destName : String) :
    generateFlightRoute hav s d
      ∈ (generateSimulatedRouteData hav noise s d destName).routes := by
  unfold generateSimulatedRouteData sortByDuration
  dsimp only
  rw [List.mem_insertionSort]
  simp

/-- C10 counterexample: when both geocoding calls fail (`none`) but
the OSRM call succeeds, findPath does not return the locally simulated
fallback RouteSet — it returns the OSRM-derived response (here 2
routes, against the simulated response's 4): a geocoding failure alone
is repaired with fallback coordinates and upstream routing is still
attempted, so only an upstream routing failure produces the simulated
fallback. -/
theorem C10_counterexample :
    (findPath havFlat noise0 "Los Angeles" fbNY fbLA none none
        (some [osrmSample])).routes.length = 2 ∧
    (generateSimulatedRouteData havFlat noise0 fbNY fbLA
        "Los Angeles").routes.length = 4 ∧
    findPath havFlat noise0 "Los Angeles" fbNY fbLA none none
        (some [osrmSample])
      ≠ generateSimulatedRouteData havFlat noise0 fbNY fbLA "Los Angeles" := by
  have h2 : (findPath havFlat noise0 "Los Angeles" fbNY fbLA none none
      (some [osrmSample])).routes.length = 2 := by
    simp [findPath]
  have h4 : (generateSimulatedRouteData havFlat noise0 fbNY fbLA
      "Los Angeles").routes.length = 4 :=
    generateSimulatedRouteData_routes_length havFlat noise0 fbNY fbLA "Los Angeles"
  refine ⟨h2, h4, ?_⟩
  intro h
  have hlen := congrArg (fun resp => resp.routes.length) h
  simp only at hlen
  rw [h2, h4] at hlen
  exact absurd hlen (by norm_num)

/-- C10 (amended): findPath never rejects — every external outcome
yields a response (the catch covers the whole body) — and in every
case the returned route list is non-empty and contains a route tagged
flight: the success path pushes `generateFlightRoute`, and the
fallback path's simulated data also includes it; an upstream routing
failure (the only failure that reaches the catch) returns exactly the
locally simulated fallback RouteSet built from the local fallback
coordinates. -/
theorem C10_never_rejects_flight_present (hav : Coordinates → Coordinates → ℚ)
    (noise : Nat → Nat → ℚ × ℚ) (destName : String) (fbS fbD : Coordinates)
    (geoSrc geoDst : Option Coordinates) :
    (∀ osrm, (findPath hav noise destName fbS fbD geoSrc geoDst osrm).routes ≠ [] ∧
      ∃ r ∈ (findPath hav noise destName fbS fbD geoSrc geoDst osrm).routes,
        r.transportMode = some TransportMode.flight) ∧
    findPath hav noise destName fbS fbD geoSrc geoDst none
      = generateSimulatedRouteData hav noise fbS fbD destName := by
  refine ⟨?_, rfl⟩
  intro osrm
  cases osrm with
  | some rs =>
    constructor
    · simp [findPath]
    · exact ⟨generateFlightRoute hav (geoSrc.getD fbS) (geoDst.getD fbD),
        by simp [findPath], rfl⟩
  | none =>
    constructor
    · have hlen : (findPath hav noise destName fbS fbD geoSrc geoDst
          none).routes.length = 4 :=
        generateSimulatedRouteData_routes_length hav noise fbS fbD destName
      intro hnil
      rw [hnil] at hlen
      simp at hlen
    · exact ⟨generateFlightRoute hav fbS fbD,
        flight_mem_generateSimulatedRouteData hav noise fbS fbD destName, rfl⟩

end SPF
